import Mathlib

/-!
Shallow embedding of `csv_processor.py`: rows are association lists from
column name to cell text, numeric cell values are idealised as rationals,
and every fallible operation returns `Except PyError`.  The error type
mirrors the exception classes the Python code can actually raise:
`ValueError` (with its message), `KeyError` (row lookup of a missing
column), `TypeError` (ordering between a number and a string), and
`ZeroDivisionError` (`sum([]) / len([])`).
-/

namespace Csv

/-- A row is an ordered dictionary from column names to cell text, as produced
by `csv.DictReader`. -/
abbrev Row := List (String × String)

/-- Dictionary lookup `row[column]`: the value at the first matching key, or
`none` when the key is absent (Python raises `KeyError` then). -/
def dictGet (r : Row) (c : String) : Option String :=
  match r with
  | [] => none
  | (k, v) :: rest => if k = c then some v else dictGet rest c

/-- The exception classes raised by the Python source. -/
inductive PyError where
  | valueError : String → PyError
  | keyError : String → PyError
  | typeError : PyError
  | zeroDivisionError : PyError
deriving DecidableEq

/-- The result of `try_convert`: either a parsed number or the original text
(Python's `Union[float, str]`); numbers are idealised as rationals. -/
inductive Value where
  | num : ℚ → Value
  | str : String → Value
deriving DecidableEq

/-- Splits a character list into its leading run of decimal digits and the
rest. -/
def splitDigits : List Char → List Char × List Char
  | [] => ([], [])
  | c :: cs =>
    if c.isDigit then
      let p := splitDigits cs
      (c :: p.1, p.2)
    else ([], c :: cs)

/-- The natural number denoted by a list of decimal digits. -/
def digitsToNat (ds : List Char) : Nat :=
  ds.foldl (fun n c => 10 * n + (c.toNat - 48)) 0

/-- Consumes an optional leading sign, returning the sign as `1` or `-1`. -/
def parseSign : List Char → Int × List Char
  | '+' :: cs => (1, cs)
  | '-' :: cs => (-1, cs)
  | cs => (1, cs)

/-- Parses an optional exponent suffix (`e`/`E`, optional sign, digits) that
must use up the whole remaining input; `some 0` on empty input. -/
def parseExp : List Char → Option Int
  | [] => some (0 : Int)
  | c :: cs =>
    if c = 'e' ∨ c = 'E' then
      let p := parseSign cs
      let q := splitDigits p.2
      if q.1 ≠ [] ∧ q.2 = [] then some (p.1 * (digitsToNat q.1 : Int)) else none
    else none

/-- Model of Python's `float(text)` on standard decimal notation: optional
sign, digits with an optional dot, optional exponent (the grammar in spec
§4.2).  Returns `none` where `float` raises `ValueError`.  Special float
spellings (`inf`, `nan`, underscores, surrounding whitespace) are outside
this model; no claim depends on them. -/
def parseFloat (s : String) : Option ℚ :=
  let p0 := parseSign s.toList
  let p1 := splitDigits p0.2
  let fr : List Char × List Char :=
    match p1.2 with
    | '.' :: r => splitDigits r
    | _ => ([], p1.2)
  if p1.1 = [] ∧ fr.1 = [] then none
  else
    match parseExp fr.2 with
    | none => none
    | some e =>
      let m : Int := p0.1 * (digitsToNat p1.1 * 10 ^ fr.1.length + digitsToNat fr.1)
      some ((m : ℚ) / 10 ^ fr.1.length * 10 ^ e)

/-- `try_convert` from `apply_filter`: try to convert a string to a float,
falling back to the string itself. -/
def try_convert (val : String) : Value :=
  match parseFloat val with
  | some q => .num q
  | none => .str val

/-- Python `x < y` on coerced values: numeric comparison on two numbers,
lexicographic comparison on two strings, `TypeError` on a number/string
mix. -/
def pyLt (x y : Value) : Except PyError Bool :=
  match x, y with
  | .num a, .num b => .ok (decide (a < b))
  | .str a, .str b => .ok (decide (a < b))
  | _, _ => .error .typeError

/-- Python `x > y` on coerced values, mirroring `pyLt`. -/
def pyGt (x y : Value) : Except PyError Bool :=
  match x, y with
  | .num a, .num b => .ok (decide (b < a))
  | .str a, .str b => .ok (decide (b < a))
  | _, _ => .error .typeError

/-- The three lambdas of the `operators` dict of `apply_filter`, dispatched
on the operator symbol: `=` is Python `==` (mixed number/string operands are
simply unequal), `>` and `<` are the ordering comparisons. -/
def evalOp (op : String) (x y : Value) : Except PyError Bool :=
  if op = "=" then .ok (decide (x = y))
  else if op = ">" then pyGt x y
  else pyLt x y

/-- The key set of the `operators` dict in `apply_filter`. -/
def operators : List String := ["=", ">", "<"]

/-- One loop iteration of `apply_filter` on one row: look up the cell
(`KeyError` when the column is absent), coerce both sides, apply the
operator. -/
def rowPasses (c op v : String) (r : Row) : Except PyError Bool :=
  match dictGet r c with
  | none => .error (.keyError c)
  | some cell => evalOp op (try_convert cell) (try_convert v)

/-- The row loop of `apply_filter`: rows are tested in order and the first
raising row aborts the whole call. -/
def filterRows (c op v : String) : List Row → Except PyError (List Row)
  | [] => .ok []
  | r :: rs =>
    match rowPasses c op v r with
    | .error e => .error e
    | .ok b =>
      match filterRows c op v rs with
      | .error e => .error e
      | .ok rest => .ok (if b then r :: rest else rest)

/-- `apply_filter(rows, column, operator, value)`: first the membership test
on the `operators` dict (raising `ValueError` for an unsupported operator),
then the row loop. -/
def apply_filter (rows : List Row) (column operator value : String) :
    Except PyError (List Row) :=
  if operator ∈ operators then filterRows column operator value rows
  else .error (.valueError ("Unsupported operator: " ++ operator))

/-- Python `float(s)` as used in the aggregation comprehension: a plain
`ValueError` when the text is not numeric. -/
def toFloat (s : String) : Except PyError ℚ :=
  match parseFloat s with
  | some q => .ok q
  | none => .error (.valueError ("could not convert string to float: " ++ s))

/-- The list comprehension `[float(row[column]) for row in rows]`: a missing
column raises `KeyError`, a non-numeric cell raises `ValueError`, otherwise
the parsed values are returned in row order. -/
def columnFloats (c : String) : List Row → Except PyError (List ℚ)
  | [] => .ok []
  | r :: rs =>
    match dictGet r c with
    | none => .error (.keyError c)
    | some s =>
      match toFloat s with
      | .error e => .error e
      | .ok q =>
        match columnFloats c rs with
        | .error e => .error e
        | .ok qs => .ok (q :: qs)

/-- The `avg` lambda `sum(x) / len(x)`: dividing by the length of an empty
list raises `ZeroDivisionError`. -/
def pyAvg (l : List ℚ) : Except PyError ℚ :=
  if l.length = 0 then .error .zeroDivisionError
  else .ok (l.sum / l.length)

/-- Python `min(list)`: `ValueError` on an empty list, otherwise the running
minimum. -/
def pyMin (l : List ℚ) : Except PyError ℚ :=
  match l with
  | [] => .error (.valueError "min() arg is an empty sequence")
  | x :: xs => .ok (xs.foldl min x)

/-- Python `max(list)`: `ValueError` on an empty list, otherwise the running
maximum. -/
def pyMax (l : List ℚ) : Except PyError ℚ :=
  match l with
  | [] => .error (.valueError "max() arg is an empty sequence")
  | x :: xs => .ok (xs.foldl max x)

/-- Round half to even to an integer, Python's `round` tie rule. -/
def roundHalfEven (q : ℚ) : Int :=
  if q - ⌊q⌋ < 1/2 then ⌊q⌋
  else if 1/2 < q - ⌊q⌋ then ⌊q⌋ + 1
  else if ⌊q⌋ % 2 = 0 then ⌊q⌋ else ⌊q⌋ + 1

/-- Python `round(result, 2)`. -/
def round2 (q : ℚ) : ℚ := (roundHalfEven (q * 100) : ℚ) / 100

/-- The dictionary built and returned by `apply_aggregation`. -/
structure AggregateResult where
  operation : String
  column : String
  value : ℚ
deriving DecidableEq

/-- The key set of the `operations` dict in `apply_aggregation`. -/
def operationsList : List String := ["avg", "min", "max"]

/-- `apply_aggregation(rows, column, operation)`: the membership test on the
`operations` dict first, then the comprehension over the column (whose
`ValueError` is re-raised as `Cannot aggregate non-numeric column` while its
`KeyError` propagates unchanged), then the chosen operation and a final
`round(result, 2)`. -/
def apply_aggregation (rows : List Row) (column operation : String) :
    Except PyError AggregateResult :=
  if operation ∈ operationsList then
    match columnFloats column rows with
    | .error (.valueError _) =>
      .error (.valueError ("Cannot aggregate non-numeric column: " ++ column))
    | .error e => .error e
    | .ok values =>
      match (if operation = "avg" then pyAvg values
             else if operation = "min" then pyMin values
             else pyMax values) with
      | .error e => .error e
      | .ok result => .ok ⟨operation, column, round2 result⟩
  else .error (.valueError ("Unsupported operation: " ++ operation))

/-- The operator priority list of `parse_condition`, in source order. -/
def condOperators : List String := [">=", "<=", "!=", "=", ">", "<"]

/-- Index of the first occurrence of `pat` as a contiguous sublist of the
haystack, `none` when it does not occur (Python's `op in condition` /
`str.find`). -/
def findSub (pat : List Char) : List Char → Option Nat
  | [] => if pat = [] then some 0 else none
  | c :: t =>
    if pat.isPrefixOf (c :: t) then some 0 else (findSub pat t).map (· + 1)

/-- Python `condition.split(op, 1)` packaged as the triple `parse_condition`
returns: the text before the first occurrence of `op`, the operator, and the
text after it; `none` when `op` does not occur in `condition`. -/
def splitOnOp (condition op : String) : Option (String × String × String) :=
  match findSub op.toList condition.toList with
  | none => none
  | some i =>
    some (String.mk (condition.toList.take i), op,
      String.mk (condition.toList.drop (i + op.toList.length)))

/-- The operator loop of `parse_condition`: try each operator in priority
order and return the split on the first one that occurs in the condition.
(`split(op, 1)` with `op` present always yields exactly two parts, so the
source's `len(parts) == 2` test never fails.) -/
def findOp (condition : String) : List String → Option (String × String × String)
  | [] => none
  | op :: rest =>
    match splitOnOp condition op with
    | some t => some t
    | none => findOp condition rest

/-- `parse_condition(condition)`: split on the first operator of the priority
list found in the string, or raise `Invalid condition format`. -/
def parse_condition (condition : String) :
    Except PyError (String × String × String) :=
  match findOp condition condOperators with
  | some t => .ok t
  | none => .error (.valueError ("Invalid condition format: " ++ condition))

/-- Spec-side restatement of §4.3, written from the spec's words: take the
first operator of the priority list that occurs anywhere in the string, split
at its first occurrence into the untrimmed text before and after it; fail
with `InvalidCondition` when no operator of the list occurs. -/
def parseConditionSpec (s : String) :
    Except PyError (String × String × String) :=
  match condOperators.find? (fun op => (findSub op.toList s.toList).isSome) with
  | none => .error (.valueError ("Invalid condition format: " ++ s))
  | some op =>
    match findSub op.toList s.toList with
    | none => .error (.valueError ("Invalid condition format: " ++ s))
    | some i =>
      .ok (String.mk (s.toList.take i), op,
        String.mk (s.toList.drop (i + op.toList.length)))

/-- The three-row price table of spec §8 (prices 100, 200, 300). -/
def rowsPrice : List Row :=
  [[("price", "100")], [("price", "200")], [("price", "300")]]

/-- The three-row rating table of spec §8 (ratings 4.5, 4.8, 4.2). -/
def rowsRating : List Row :=
  [[("rating", "4.5")], [("rating", "4.8")], [("rating", "4.2")]]

/-- Evaluation fact: `float("1")` is `1`. -/
lemma pf1 : parseFloat "1" = some 1 := by
  have h : parseFloat "1" =
      some (((1 : Int) : ℚ) / 10 ^ (0 : ℕ) * 10 ^ (0 : Int)) := rfl
  rw [h]; norm_num

/-- Evaluation fact: `float("100")` is `100`. -/
lemma pf100 : parseFloat "100" = some 100 := by
  have h : parseFloat "100" =
      some (((100 : Int) : ℚ) / 10 ^ (0 : ℕ) * 10 ^ (0 : Int)) := rfl
  rw [h]; norm_num

/-- Evaluation fact: `float("150")` is `150`. -/
lemma pf150 : parseFloat "150" = some 150 := by
  have h : parseFloat "150" =
      some (((150 : Int) : ℚ) / 10 ^ (0 : ℕ) * 10 ^ (0 : Int)) := rfl
  rw [h]; norm_num

/-- Evaluation fact: `float("200")` is `200`. -/
lemma pf200 : parseFloat "200" = some 200 := by
  have h : parseFloat "200" =
      some (((200 : Int) : ℚ) / 10 ^ (0 : ℕ) * 10 ^ (0 : Int)) := rfl
  rw [h]; norm_num

/-- Evaluation fact: `float("300")` is `300`. -/
lemma pf300 : parseFloat "300" = some 300 := by
  have h : parseFloat "300" =
      some (((300 : Int) : ℚ) / 10 ^ (0 : ℕ) * 10 ^ (0 : Int)) := rfl
  rw [h]; norm_num

/-- Evaluation fact: `float("100.0")` is `100`, the same number as
`float("100")`. -/
lemma pf100dot0 : parseFloat "100.0" = some 100 := by
  have h : parseFloat "100.0" =
      some (((1000 : Int) : ℚ) / 10 ^ (1 : ℕ) * 10 ^ (0 : Int)) := rfl
  rw [h]; norm_num

/-- Evaluation fact: `float("4.5")` is `9/2`. -/
lemma pf45 : parseFloat "4.5" = some (9/2) := by
  have h : parseFloat "4.5" =
      some (((45 : Int) : ℚ) / 10 ^ (1 : ℕ) * 10 ^ (0 : Int)) := rfl
  rw [h]; norm_num

/-- Evaluation fact: `float("4.8")` is `24/5`. -/
lemma pf48 : parseFloat "4.8" = some (24/5) := by
  have h : parseFloat "4.8" =
      some (((48 : Int) : ℚ) / 10 ^ (1 : ℕ) * 10 ^ (0 : Int)) := rfl
  rw [h]; norm_num

/-- Evaluation fact: `float("4.2")` is `21/5`. -/
lemma pf42 : parseFloat "4.2" = some (21/5) := by
  have h : parseFloat "4.2" =
      some (((42 : Int) : ℚ) / 10 ^ (1 : ℕ) * 10 ^ (0 : Int)) := rfl
  rw [h]; norm_num

/-- Evaluation fact: `float("x")` raises `ValueError`. -/
lemma pfx : parseFloat "x" = none := rfl

/-- Evaluation fact: `float("abc")` raises `ValueError`. -/
lemma pfabc : parseFloat "abc" = none := rfl

/-- Filtering the price table by `price > 150` keeps exactly the rows with
price 200 and 300, in that order. -/
lemma filter_rowsPrice : apply_filter rowsPrice "price" ">" "150" =
    .ok [[("price", "200")], [("price", "300")]] := by
  norm_num [apply_filter, operators, rowsPrice, filterRows, rowPasses, dictGet,
    try_convert, pf100, pf150, pf200, pf300, evalOp, pyGt, pyLt]
  rfl

/-- The rating column of the rating table parses to `[9/2, 24/5, 21/5]`. -/
lemma columnFloats_rowsRating :
    columnFloats "rating" rowsRating = .ok [9/2, 24/5, 21/5] := by
  norm_num [columnFloats, rowsRating, dictGet, toFloat, pf45, pf48, pf42]

/-- A successful filter pass returns a sublist (order-preserving subsequence)
of its input rows. -/
lemma filterRows_ok_sublist (c op v : String) :
    ∀ (l out : List Row), filterRows c op v l = .ok out → out.Sublist l := by
  intro l
  induction l with
  | nil =>
    intro out h
    simp only [filterRows, Except.ok.injEq] at h
    simp [← h]
  | cons r rs ih =>
    intro out h
    simp only [filterRows] at h
    cases hp : rowPasses c op v r with
    | error e => rw [hp] at h; cases h
    | ok b =>
      rw [hp] at h
      cases hrec : filterRows c op v rs with
      | error e => rw [hrec] at h; cases h
      | ok rest =>
        rw [hrec] at h
        simp only [Except.ok.injEq] at h
        cases b with
        | true =>
          simp only [if_pos] at h
          rw [← h]
          exact (ih rest hrec).cons₂ r
        | false =>
          simp only [Bool.false_eq_true, if_neg, not_false_eq_true] at h
          rw [← h]
          exact (ih rest hrec).cons r

/-- Every row of a successful filter output passed the predicate test. -/
lemma filterRows_mem_passes (c op v : String) :
    ∀ (l out : List Row), filterRows c op v l = .ok out →
      ∀ r ∈ out, rowPasses c op v r = .ok true := by
  intro l
  induction l with
  | nil =>
    intro out h
    simp only [filterRows, Except.ok.injEq] at h
    simp [← h]
  | cons r rs ih =>
    intro out h r0 hr0
    simp only [filterRows] at h
    cases hp : rowPasses c op v r with
    | error e => rw [hp] at h; cases h
    | ok b =>
      rw [hp] at h
      cases hrec : filterRows c op v rs with
      | error e => rw [hrec] at h; cases h
      | ok rest =>
        rw [hrec] at h
        simp only [Except.ok.injEq] at h
        cases b with
        | true =>
          simp only [if_pos] at h
          rw [← h] at hr0
          rcases List.mem_cons.mp hr0 with h0 | h0
          · rw [h0]; exact hp
          · exact ih rest hrec r0 h0
        | false =>
          simp only [Bool.false_eq_true, if_neg, not_false_eq_true] at h
          rw [← h] at hr0
          exact ih rest hrec r0 hr0

/-- Every input row that passes the predicate test appears in a successful
filter output. -/
lemma filterRows_passes_mem (c op v : String) :
    ∀ (l out : List Row), filterRows c op v l = .ok out →
      ∀ r ∈ l, rowPasses c op v r = .ok true → r ∈ out := by
  intro l
  induction l with
  | nil => intro out _ r hr; cases hr
  | cons r rs ih =>
    intro out h r0 hr0 hpass
    simp only [filterRows] at h
    cases hp : rowPasses c op v r with
    | error e => rw [hp] at h; cases h
    | ok b =>
      rw [hp] at h
      cases hrec : filterRows c op v rs with
      | error e => rw [hrec] at h; cases h
      | ok rest =>
        rw [hrec] at h
        simp only [Except.ok.injEq] at h
        rcases List.mem_cons.mp hr0 with h0 | h0
        · have hb : b = true := by
            rw [h0] at hpass; rw [hp] at hpass
            exact ((Except.ok.injEq _ _).mp hpass)
          rw [hb] at h
          simp only [if_pos] at h
          rw [← h, h0]
          exact List.mem_cons_self r rest
        · have hin : r0 ∈ rest := ih rest hrec r0 h0 hpass
          cases b with
          | true =>
            simp only [if_pos] at h
            rw [← h]
            exact List.mem_cons_of_mem r hin
          | false =>
            simp only [Bool.false_eq_true, if_neg, not_false_eq_true] at h
            rw [← h]; exact hin

/-- Filtering a successful filter output again with the same arguments
returns it unchanged. -/
lemma filterRows_idem (c op v : String) :
    ∀ (l out : List Row), filterRows c op v l = .ok out →
      filterRows c op v out = .ok out := by
  intro l
  induction l with
  | nil =>
    intro out h
    simp only [filterRows, Except.ok.injEq] at h
    rw [← h]; rfl
  | cons r rs ih =>
    intro out h
    simp only [filterRows] at h
    cases hp : rowPasses c op v r with
    | error e => rw [hp] at h; cases h
    | ok b =>
      rw [hp] at h
      cases hrec : filterRows c op v rs with
      | error e => rw [hrec] at h; cases h
      | ok rest =>
        rw [hrec] at h
        simp only [Except.ok.injEq] at h
        cases b with
        | true =>
          simp only [if_pos] at h
          rw [← h]
          simp only [filterRows, hp, ih rest hrec, if_pos]
        | false =>
          simp only [Bool.false_eq_true, if_neg, not_false_eq_true] at h
          rw [← h]
          exact ih rest hrec

/-- When some row lacks the filtered column, the filter loop never
succeeds. -/
lemma filterRows_absent_not_ok (c op v : String) :
    ∀ (l : List Row), (∃ r ∈ l, dictGet r c = none) →
      ∀ out, filterRows c op v l ≠ .ok out := by
  intro l
  induction l with
  | nil => intro h; rcases h with ⟨r, hr, _⟩; cases hr
  | cons r rs ih =>
    intro h out hok
    simp only [filterRows] at hok
    rcases h with ⟨r0, hr0, habs⟩
    rcases List.mem_cons.mp hr0 with h0 | h0
    · rw [h0] at habs
      rw [show rowPasses c op v r = .error (.keyError c) by
        simp only [rowPasses, habs]] at hok
      cases hok
    · cases hp : rowPasses c op v r with
      | error e => rw [hp] at hok; cases hok
      | ok b =>
        rw [hp] at hok
        cases hrec : filterRows c op v rs with
        | error e => rw [hrec] at hok; cases hok
        | ok rest => exact ih ⟨r0, h0, habs⟩ rest hrec

/-- The `=` comparison never raises: it returns the (decidable) equality of
the two coerced values. -/
lemma evalOp_eq_ok (x y : Value) : evalOp "=" x y = .ok (decide (x = y)) := rfl

/-- With the `=` operator, a row list containing a row without the filtered
column makes the filter loop fail with `KeyError` (equality comparisons on
the earlier rows cannot raise first). -/
lemma filterRows_eq_absent_keyError (c v : String) :
    ∀ (l : List Row), (∃ r ∈ l, dictGet r c = none) →
      filterRows c "=" v l = .error (.keyError c) := by
  intro l
  induction l with
  | nil => intro h; rcases h with ⟨r, hr, _⟩; cases hr
  | cons r rs ih =>
    intro h
    cases hr : dictGet r c with
    | none => simp only [filterRows, rowPasses, hr]
    | some s =>
      rcases h with ⟨r0, hr0, habs⟩
      rcases List.mem_cons.mp hr0 with h0 | h0
      · rw [h0, hr] at habs; cases habs
      · have htail := ih ⟨r0, h0, habs⟩
        simp only [filterRows, rowPasses, hr, evalOp_eq_ok, htail]

/-- The column comprehension returns one value per row. -/
lemma columnFloats_length (c : String) :
    ∀ (l : List Row) (vs : List ℚ), columnFloats c l = .ok vs →
      vs.length = l.length := by
  intro l
  induction l with
  | nil =>
    intro vs h
    simp only [columnFloats, Except.ok.injEq] at h
    simp [← h]
  | cons r rs ih =>
    intro vs h
    cases hr : dictGet r c with
    | none => simp only [columnFloats, hr] at h; cases h
    | some s =>
      simp only [columnFloats, hr] at h
      cases ht : toFloat s with
      | error e => rw [ht] at h; cases h
      | ok q =>
        rw [ht] at h
        cases hrec : columnFloats c rs with
        | error e => rw [hrec] at h; cases h
        | ok qs =>
          rw [hrec] at h
          simp only [Except.ok.injEq] at h
          rw [← h]
          simp [ih qs hrec]

/-- When every row has the column but some cell does not parse as a float,
the column comprehension raises a `ValueError` (never a `KeyError`). -/
lemma columnFloats_bad_value (c : String) :
    ∀ (l : List Row), (∀ r ∈ l, (dictGet r c).isSome) →
      (∃ r ∈ l, ∃ s, dictGet r c = some s ∧ parseFloat s = none) →
      ∃ msg, columnFloats c l = .error (.valueError msg) := by
  intro l
  induction l with
  | nil => intro _ h; rcases h with ⟨r, hr, _⟩; cases hr
  | cons r rs ih =>
    intro hall hbad
    have hr : (dictGet r c).isSome := hall r (List.mem_cons_self r rs)
    rcases Option.isSome_iff_exists.mp hr with ⟨s0, hs0⟩
    cases hpf : parseFloat s0 with
    | none =>
      refine ⟨"could not convert string to float: " ++ s0, ?_⟩
      simp only [columnFloats, hs0, toFloat, hpf]
    | some q =>
      rcases hbad with ⟨r0, hr0, s1, hs1, hps1⟩
      rcases List.mem_cons.mp hr0 with h0 | h0
      · rw [h0, hs0] at hs1
        cases hs1
        rw [hpf] at hps1; cases hps1
      · rcases ih (fun r hr => hall r (List.mem_cons_of_mem _ hr))
          ⟨r0, h0, s1, hs1, hps1⟩ with ⟨msg, hmsg⟩
        refine ⟨msg, ?_⟩
        simp only [columnFloats, hs0, toFloat, hpf, hmsg]

/-- The running minimum of a fold is the head or one of the folded
elements. -/
lemma foldl_min_mem : ∀ (xs : List ℚ) (x : ℚ),
    xs.foldl min x = x ∨ xs.foldl min x ∈ xs := by
  intro xs
  induction xs with
  | nil => intro x; left; rfl
  | cons a as ih =>
    intro x
    simp only [List.foldl_cons]
    rcases ih (min x a) with h | h
    · rw [h]
      rcases min_choice x a with hm | hm
      · left; exact hm
      · right; rw [hm]; exact List.mem_cons_self a as
    · right; exact List.mem_cons_of_mem a h

/-- The running minimum of a fold is a lower bound of the seed and all folded
elements. -/
lemma foldl_min_le : ∀ (xs : List ℚ) (x : ℚ),
    xs.foldl min x ≤ x ∧ ∀ y ∈ xs, xs.foldl min x ≤ y := by
  intro xs
  induction xs with
  | nil => intro x; exact ⟨le_refl x, by intro y hy; cases hy⟩
  | cons a as ih =>
    intro x
    simp only [List.foldl_cons]
    rcases ih (min x a) with ⟨h1, h2⟩
    refine ⟨le_trans h1 (min_le_left x a), ?_⟩
    intro y hy
    rcases List.mem_cons.mp hy with h0 | h0
    · rw [h0]; exact le_trans h1 (min_le_right x a)
    · exact h2 y h0

/-- The running maximum of a fold is the head or one of the folded
elements. -/
lemma foldl_max_mem : ∀ (xs : List ℚ) (x : ℚ),
    xs.foldl max x = x ∨ xs.foldl max x ∈ xs := by
  intro xs
  induction xs with
  | nil => intro x; left; rfl
  | cons a as ih =>
    intro x
    simp only [List.foldl_cons]
    rcases ih (max x a) with h | h
    · rw [h]
      rcases max_choice x a with hm | hm
      · left; exact hm
      · right; rw [hm]; exact List.mem_cons_self a as
    · right; exact List.mem_cons_of_mem a h

/-- The running maximum of a fold is an upper bound of the seed and all
folded elements. -/
lemma foldl_max_le : ∀ (xs : List ℚ) (x : ℚ),
    x ≤ xs.foldl max x ∧ ∀ y ∈ xs, y ≤ xs.foldl max x := by
  intro xs
  induction xs with
  | nil => intro x; exact ⟨le_refl x, by intro y hy; cases hy⟩
  | cons a as ih =>
    intro x
    simp only [List.foldl_cons]
    rcases ih (max x a) with ⟨h1, h2⟩
    refine ⟨le_trans (le_max_left x a) h1, ?_⟩
    intro y hy
    rcases List.mem_cons.mp hy with h0 | h0
    · rw [h0]; exact le_trans (le_max_right x a) h1
    · exact h2 y h0

/-- The operator loop of `parse_condition` agrees with a priority search over
the operator list. -/
lemma findOp_eq_find (s : String) (ops : List String) :
    findOp s ops =
      (ops.find? (fun op => (findSub op.toList s.toList).isSome)).bind
        (splitOnOp s) := by
  induction ops with
  | nil => rfl
  | cons op rest ih =>
    by_cases h : (findSub op.toList s.toList).isSome
    · rcases Option.isSome_iff_exists.mp h with ⟨i, hi⟩
      rw [List.find?_cons_of_pos _ (by simpa using h)]
      have hsp : splitOnOp s op =
          some (String.mk (s.toList.take i), op,
            String.mk (s.toList.drop (i + op.toList.length))) := by
        simp only [splitOnOp, hi]
      simp only [findOp, hsp, Option.some_bind]
    · have h0 : findSub op.toList s.toList = none :=
        Option.not_isSome_iff_eq_none.mp h
      rw [List.find?_cons_of_neg _ (by simpa using h)]
      simp only [findOp, splitOnOp, h0, ih]

/-- Claim C1: the claim says the Row Filter evaluates all six operators
`=`, `!=`, `>`, `<`, `>=`, `<=` and raises `UnsupportedOperator` only
outside that set.  The code's `operators` dict holds only `=`, `>`, `<`:
on the failing input, the code's own condition parser produces the
operator `>=`, and `apply_filter` then rejects it with
`ValueError "Unsupported operator: >="` instead of evaluating it as an
ordering comparison. -/
theorem claim_C1_ge_rejected :
    parse_condition "price>=150" = .ok ("price", ">=", "150") ∧
    apply_filter [[("price", "200")]] "price" ">=" "150" =
      .error (.valueError "Unsupported operator: >=") ∧
    apply_filter [[("price", "200")]] "price" "!=" "150" =
      .error (.valueError "Unsupported operator: !=") ∧
    apply_filter [[("price", "200")]] "price" "<=" "150" =
      .error (.valueError "Unsupported operator: <=") :=
  ⟨rfl, rfl, rfl, rfl⟩

/-- Claim C2: `parse_condition` tries the operators in the fixed priority
order `>=`, `<=`, `!=`, `=`, `>`, `<`, splits at the first occurrence of the
first operator (by that priority order) occurring anywhere in the string into
the untrimmed text before and after it, fails exactly when no operator of
the list occurs, and in particular parses `rating>=4.5` with operator `>=`
rather than splitting on the premature `=`. -/
theorem claim_C2_parse_condition_priority (s : String) :
    parse_condition s = parseConditionSpec s ∧
    parse_condition "rating>=4.5" = .ok ("rating", ">=", "4.5") := by
  constructor
  · rw [parse_condition, parseConditionSpec, findOp_eq_find]
    cases hf : condOperators.find?
        (fun op => (findSub op.toList s.toList).isSome) with
    | none => rfl
    | some op =>
      have hs : (findSub op.toList s.toList).isSome = true := by
        simpa using List.find?_some hf
      rcases Option.isSome_iff_exists.mp hs with ⟨i, hi⟩
      simp only [Option.some_bind, splitOnOp, hi]
  · rfl

/-- Claim C3: the claim says aggregating an empty row list fails with a
dedicated `EmptyInput` error for each of avg, min, max.  The code has no
such check: on empty rows, `avg` raises `ZeroDivisionError` (which even
escapes the driver's `except ValueError` handler), and `min`/`max` raise
the builtin empty-sequence `ValueError` of Python's `min()`/`max()`.  No
operation silently returns NaN or a default, but none raises `EmptyInput`. -/
theorem claim_C3_empty_input :
    apply_aggregation [] "price" "avg" = .error .zeroDivisionError ∧
    apply_aggregation [] "price" "min" =
      .error (.valueError "min() arg is an empty sequence") ∧
    apply_aggregation [] "price" "max" =
      .error (.valueError "max() arg is an empty sequence") :=
  ⟨rfl, rfl, rfl⟩

/-- Claim C4: on a non-empty row list whose cells at the column all parse as
numbers (so the comprehension returns the value list `vs`), `avg` returns
the arithmetic mean, `min` the minimum and `max` the maximum of `vs`,
each computed at full precision and rounded to 2 decimal places only as the
final step. -/
theorem claim_C4_aggregate_values (rows : List Row) (c : String)
    (vs : List ℚ) (hvs : columnFloats c rows = .ok vs) (hne : rows ≠ []) :
    apply_aggregation rows c "avg" =
      .ok ⟨"avg", c, round2 (vs.sum / vs.length)⟩ ∧
    (∃ m, m ∈ vs ∧ (∀ y ∈ vs, m ≤ y) ∧
      apply_aggregation rows c "min" = .ok ⟨"min", c, round2 m⟩) ∧
    (∃ M, M ∈ vs ∧ (∀ y ∈ vs, y ≤ M) ∧
      apply_aggregation rows c "max" = .ok ⟨"max", c, round2 M⟩) := by
  have hlen : vs.length = rows.length := columnFloats_length c rows vs hvs
  have hvne : vs ≠ [] := by
    intro hv
    apply hne
    rw [hv] at hlen
    exact List.length_eq_zero.mp hlen.symm
  rcases List.exists_cons_of_ne_nil hvne with ⟨m0, xs, hcons⟩
  refine ⟨?_, ?_, ?_⟩
  · simp only [apply_aggregation, hvs]
    rw [if_pos (show ("avg" : String) ∈ operationsList by decide)]
    simp only [pyAvg]
    rw [if_pos (by decide), if_neg (fun h0 => hvne (List.length_eq_zero.mp h0))]
  · refine ⟨xs.foldl min m0, ?_, ?_, ?_⟩
    · rw [hcons]
      rcases foldl_min_mem xs m0 with h | h
      · rw [h]; exact List.mem_cons_self m0 xs
      · exact List.mem_cons_of_mem m0 h
    · intro y hy
      rw [hcons] at hy
      rcases List.mem_cons.mp hy with h0 | h0
      · rw [h0]; exact (foldl_min_le xs m0).1
      · exact (foldl_min_le xs m0).2 y h0
    · simp only [apply_aggregation, hvs]
      rw [if_pos (show ("min" : String) ∈ operationsList by decide)]
      rw [if_neg (by decide), if_pos (by decide)]
      rw [hcons]
      simp only [pyMin]
  · refine ⟨xs.foldl max m0, ?_, ?_, ?_⟩
    · rw [hcons]
      rcases foldl_max_mem xs m0 with h | h
      · rw [h]; exact List.mem_cons_self m0 xs
      · exact List.mem_cons_of_mem m0 h
    · intro y hy
      rw [hcons] at hy
      rcases List.mem_cons.mp hy with h0 | h0
      · rw [h0]; exact (foldl_max_le xs m0).1
      · exact (foldl_max_le xs m0).2 y h0
    · simp only [apply_aggregation, hvs]
      rw [if_pos (show ("max" : String) ∈ operationsList by decide)]
      rw [if_neg (by decide), if_neg (by decide)]
      rw [hcons]
      simp only [pyMax]

/-- Witness for C4 at the spec §8 rating table: the average of 4.5, 4.8 and
4.2 is returned as `round((4.5+4.8+4.2)/3, 2)`, which equals 4.5. -/
theorem claim_C4_witness :
    apply_aggregation rowsRating "rating" "avg" =
      .ok ⟨"avg", "rating",
        round2 (([(9 : ℚ)/2, 24/5, 21/5].sum) / ([(9 : ℚ)/2, 24/5, 21/5].length))⟩ ∧
    round2 (([(9 : ℚ)/2, 24/5, 21/5].sum) / ([(9 : ℚ)/2, 24/5, 21/5].length)) =
      9/2 :=
  ⟨(claim_C4_aggregate_values rowsRating "rating" [9/2, 24/5, 21/5]
      columnFloats_rowsRating (by simp [rowsRating])).1,
   by norm_num [round2, roundHalfEven]⟩

/-- Claim C5: a successful filter call returns the order-preserving
subsequence of exactly those input rows on which the predicate evaluates
true (both sides coerced independently inside `rowPasses`); the input list
is untouched (the embedding is pure, mutation cannot occur). -/
theorem claim_C5_filter_subsequence (rows : List Row) (c op v : String)
    (out : List Row) (h : apply_filter rows c op v = .ok out) :
    out.Sublist rows ∧
    ∀ r ∈ rows, (r ∈ out ↔ rowPasses c op v r = .ok true) := by
  by_cases hop : op ∈ operators
  · simp only [apply_filter, if_pos hop] at h
    refine ⟨filterRows_ok_sublist c op v rows out h, fun r hr => ⟨?_, ?_⟩⟩
    · exact fun ho => filterRows_mem_passes c op v rows out h r ho
    · exact fun hp => filterRows_passes_mem c op v rows out h r hr hp
  · simp only [apply_filter, if_neg hop] at h
    cases h

/-- Witness for C5 at the spec §8 price table: filtering by `price > 150`
returns exactly the rows with price 200 and 300, in order, a subsequence of
the input. -/
theorem claim_C5_witness :
    apply_filter rowsPrice "price" ">" "150" =
      .ok [[("price", "200")], [("price", "300")]] ∧
    List.Sublist [[("price", "200")], [("price", "300")]] rowsPrice :=
  ⟨filter_rowsPrice,
   (claim_C5_filter_subsequence rowsPrice "price" ">" "150" _
      filter_rowsPrice).1⟩

/-- Claim C6: a coerced number and a coerced string are never equal under
`=`, and the ordering comparisons `>` and `<` between a number and a string
fail with a type error (Python 3's `TypeError`, the spec's `TypeMismatch`)
rather than producing an arbitrary answer. -/
theorem claim_C6_type_mismatch (q : ℚ) (s : String) :
    evalOp "=" (.num q) (.str s) = .ok false ∧
    evalOp "=" (.str s) (.num q) = .ok false ∧
    evalOp ">" (.num q) (.str s) = .error .typeError ∧
    evalOp ">" (.str s) (.num q) = .error .typeError ∧
    evalOp "<" (.num q) (.str s) = .error .typeError ∧
    evalOp "<" (.str s) (.num q) = .error .typeError := by
  refine ⟨?_, ?_, rfl, rfl, rfl, rfl⟩ <;> simp [evalOp]

/-- Claim C7: when every row has the column but some cell at it does not
parse as a float, `apply_aggregation` fails with the non-numeric-column
`ValueError`, for each operation among avg, min, max. -/
theorem claim_C7_non_numeric (rows : List Row) (c op : String)
    (hop : op ∈ operationsList)
    (hall : ∀ r ∈ rows, (dictGet r c).isSome)
    (hbad : ∃ r ∈ rows, ∃ s, dictGet r c = some s ∧ parseFloat s = none) :
    apply_aggregation rows c op =
      .error (.valueError ("Cannot aggregate non-numeric column: " ++ c)) := by
  rcases columnFloats_bad_value c rows hall hbad with ⟨msg, hmsg⟩
  simp only [apply_aggregation, if_pos hop, hmsg]

/-- Witness for C7: averaging the non-numeric `name` column fails with the
non-numeric-column error. -/
theorem claim_C7_witness :
    apply_aggregation [[("name", "abc")]] "name" "avg" =
      .error (.valueError "Cannot aggregate non-numeric column: name") :=
  claim_C7_non_numeric [[("name", "abc")]] "name" "avg" (by decide)
    (by intro r hr; simp at hr; rw [hr]; rfl)
    ⟨[("name", "abc")], by simp, "abc", rfl, pfabc⟩

/-- Counterexample to claim C8 as stated: in this table the column `a` is
absent from the second row's key set, yet the filter fails with the
cross-type `TypeError` raised on the first row (comparing the number 1 with
the string "x"), not with `KeyError`/`UnknownColumn`. -/
theorem claim_C8_counterexample :
    dictGet [("b", "2")] "a" = none ∧
    [("b", "2")] ∈ [[("a", "1")], [("b", "2")]] ∧
    apply_filter [[("a", "1")], [("b", "2")]] "a" ">" "x" =
      .error .typeError :=
  ⟨rfl, by simp, rfl⟩

/-- Claim C8, amended: when the column is absent from some row's key set the
filter never succeeds; with the `=` operator (whose comparison cannot raise)
it fails precisely with `KeyError` — the code's `UnknownColumn` — while with
`>`/`<` an earlier row's cross-type comparison may raise `TypeError` first,
and an unrecognized operator is rejected before any row is read. -/
theorem claim_C8_amended (rows : List Row) (c v : String)
    (h : ∃ r ∈ rows, dictGet r c = none) :
    (∀ op, ∀ out, apply_filter rows c op v ≠ .ok out) ∧
    apply_filter rows c "=" v = .error (.keyError c) := by
  constructor
  · intro op out hok
    by_cases hop : op ∈ operators
    · simp only [apply_filter, if_pos hop] at hok
      exact filterRows_absent_not_ok c op v rows h out hok
    · simp only [apply_filter, if_neg hop] at hok
      cases hok
  · rw [apply_filter, if_pos (show ("=" : String) ∈ operators by decide)]
    exact filterRows_eq_absent_keyError c v rows h

/-- Witness for the amended C8: filtering a one-row table that lacks the
column `a` with `=` fails with `KeyError "a"`. -/
theorem claim_C8_witness :
    apply_filter [[("b", "2")]] "a" "=" "1" = .error (.keyError "a") :=
  (claim_C8_amended [[("b", "2")]] "a" "1" ⟨[("b", "2")], by simp, rfl⟩).2

/-- Claim C9: filtering is idempotent — applying a successful filter to its
own output with the same arguments returns the output unchanged. -/
theorem claim_C9_filter_idempotent (rows : List Row) (c op v : String)
    (out : List Row) (h : apply_filter rows c op v = .ok out) :
    apply_filter out c op v = .ok out := by
  by_cases hop : op ∈ operators
  · simp only [apply_filter, if_pos hop] at h ⊢
    exact filterRows_idem c op v rows out h
  · simp only [apply_filter, if_neg hop] at h
    cases h

/-- Witness for C9: re-filtering the `price > 150` output returns it
identically. -/
theorem claim_C9_witness :
    apply_filter [[("price", "200")], [("price", "300")]] "price" ">" "150" =
      .ok [[("price", "200")], [("price", "300")]] :=
  claim_C9_filter_idempotent rowsPrice "price" ">" "150" _ filter_rowsPrice

/-- Claim C10: because both sides are coerced before `=` is applied, a cell
and a literal that are different strings but parse to the same number
compare equal, so the row is kept: equality under the filter is numeric
whenever both strings parse as floats. -/
theorem claim_C10_numeric_equality (rows : List Row) (c v : String)
    (out : List Row) (r : Row) (s : String) (x : ℚ)
    (hfil : apply_filter rows c "=" v = .ok out) (hr : r ∈ rows)
    (hcell : dictGet r c = some s) (hs : parseFloat s = some x)
    (hv : parseFloat v = some x) : r ∈ out := by
  have hop : ("=" : String) ∈ operators := by decide
  simp only [apply_filter, if_pos hop] at hfil
  apply filterRows_passes_mem c "=" v rows out hfil r hr
  simp only [rowPasses, hcell, try_convert, hs, hv, evalOp_eq_ok]
  simp

/-- Witness for C10: filtering on the literal `"100.0"` keeps the row whose
cell is the different string `"100"`, since both parse to the number 100. -/
theorem claim_C10_witness :
    apply_filter [[("price", "100")]] "price" "=" "100.0" =
      .ok [[("price", "100")]] ∧
    [("price", "100")] ∈ [[("price", "100")]] := by
  have hev : apply_filter [[("price", "100")]] "price" "=" "100.0" =
      .ok [[("price", "100")]] := by
    norm_num [apply_filter, operators, filterRows, rowPasses, dictGet,
      try_convert, pf100, pf100dot0, evalOp]
  exact ⟨hev,
    claim_C10_numeric_equality [[("price", "100")]] "price" "100.0"
      [[("price", "100")]] [("price", "100")] "100" 100 hev (by simp) rfl
      pf100 pf100dot0⟩

end Csv
